import Mathlib

/-!
Shallow embedding of the zero-shot classification notebooks of BARTDemo.

The repository holds two notebooks whose shared logic is a tsv loader
`read_dataset` and a `ZeroShotClassifier` with methods `__init__`, `train`
and `predict`.  Texts and labels are modelled as Lean strings, file lines as
lists of characters, similarity scores as rationals.  The sentence embedding
space is an arbitrary type `Emb`; a model is a function from sentences to
embeddings, and `model.encode` applied to a list of sentences encodes each
sentence independently (one output row per input sentence).  The library
call `util.pytorch_cos_sim` is an abstract binary score function `sim`.
Fallible operations return `Except String`, the error text naming the Python
exception they raise.
-/

namespace ZeroShot

/-- Characters removed by Python `str.strip()` with no argument: the
characters for which `str.isspace()` holds, namely the ASCII whitespace
`\t \n \x0b \x0c \r` and space, the file/group/record/unit separators
`\x1c`-`\x1f`, the next-line character `\x85`, the no-break space `\xa0`,
the ogham space mark `\u1680`, the typographic spaces `\u2000`-`\u200a`,
the line separator `\u2028`, the paragraph separator `\u2029`, the narrow
no-break space `\u202f`, the medium mathematical space `\u205f` and the
ideographic space `\u3000`. -/
def isPySpace (c : Char) : Bool :=
  c = ' ' || c = '\t' || c = '\n' || c = '\r' || c = '\x0b' || c = '\x0c' ||
  c = '\x1c' || c = '\x1d' || c = '\x1e' || c = '\x1f' ||
  c = '\x85' || c = '\xa0' || c = '\u1680' ||
  (0x2000 ≤ c.toNat && c.toNat ≤ 0x200a) ||
  c = '\u2028' || c = '\u2029' || c = '\u202f' || c = '\u205f' ||
  c = '\u3000'

/-- Embedding of Python `line.strip()`: remove leading and trailing
whitespace from a line, modelled as a list of characters. -/
def pyStrip (l : List Char) : List Char :=
  ((l.dropWhile isPySpace).reverse.dropWhile isPySpace).reverse

/-- Embedding of Python `s.split("\t")`: split a character list at every tab.
As in Python, the empty string yields one empty field. -/
def splitTab : List Char → List (List Char)
  | [] => [[]]
  | c :: cs =>
    if c = '\t' then [] :: splitTab cs
    else
      match splitTab cs with
      | [] => [[c]]
      | f :: rest => (c :: f) :: rest

/-- One item of the dataset built by `read_dataset`: the dict with keys
`"id"`, `"text"` and `"label"`, holding the three tab-separated fields. -/
structure Record where
  id : List Char
  text : List Char
  label : List Char
  deriving DecidableEq, Repr

/-- Embedding of the line `id, text, label = line.strip().split("\t")` of
`read_dataset`: the unpacking succeeds exactly when the split yields three
fields, and otherwise raises a `ValueError`, which propagates. -/
def parseLine (line : List Char) : Except String Record :=
  match splitTab (pyStrip line) with
  | [i, t, l] => .ok { id := i, text := t, label := l }
  | parts =>
    if parts.length < 3 then .error "ValueError: not enough values to unpack"
    else .error "ValueError: too many values to unpack"

/-- The loop of `read_dataset` over the non-header lines: parse each line in
order and collect the records; the first failing line aborts the whole call
with its exception. -/
def readLines : List (List Char) → Except String (List Record)
  | [] => .ok []
  | line :: rest => do
    let item ← parseLine line
    let tail ← readLines rest
    .ok (item :: tail)

/-- Embedding of `read_dataset`: the file is given as its list of lines, as
produced by `list(f)` (each line may keep its trailing newline, which
`strip` removes); `list(f)[1:]` skips exactly the first line. -/
def read_dataset (fileLines : List (List Char)) : Except String (List Record) :=
  readLines (fileLines.drop 1)

/-- Embedding of the `ZeroShotClassifier` attribute state: `model` is the
instance attribute `self.model`, `labels` the trained label list,
`label_embeddings` the cached description embeddings (`None` before
`train`), `threshold` the optional similarity threshold and `null_label`
the fallback label. -/
structure ZeroShotClassifier (Emb : Type) where
  model : String → Emb
  labels : List String
  label_embeddings : Option (List Emb)
  threshold : Option ℚ
  null_label : String

variable {Emb : Type}

/-- Embedding of `ZeroShotClassifier.__init__(model, threshold, null_label)`:
labels start empty and `label_embeddings` starts as `None`. -/
def ZeroShotClassifier.init (model : String → Emb) (threshold : Option ℚ)
    (null_label : String) : ZeroShotClassifier Emb :=
  { model := model, labels := [], label_embeddings := none,
    threshold := threshold, null_label := null_label }

/-- Embedding of `ZeroShotClassifier.train(labels, descriptions)`.  The
source line `self.label_embeddings = model.encode(descriptions)` reads the
notebook-global variable `model`, not `self.model`; that global binding is
passed here explicitly as `globalModel`. -/
def ZeroShotClassifier.train (c : ZeroShotClassifier Emb)
    (globalModel : String → Emb) (labels : List String)
    (descriptions : List String) : ZeroShotClassifier Emb :=
  { c with labels := labels,
           label_embeddings := some (descriptions.map globalModel) }

/-- The order used by `sorted(..., key=lambda x: x[1], reverse=True)`: a
pair may come before another exactly when its score is at least the score of
the other.  A stable sort under this relation is what Python `sorted` with
`reverse=True` computes. -/
def scoreGe (a b : String × ℚ) : Prop := b.2 ≤ a.2

instance : DecidableRel scoreGe :=
  fun a b => inferInstanceAs (Decidable (b.2 ≤ a.2))

instance : IsTotal (String × ℚ) scoreGe := ⟨fun a b => le_total b.2 a.2⟩

instance : IsTrans (String × ℚ) scoreGe := ⟨fun _ _ _ h1 h2 => le_trans h2 h1⟩

/-- Embedding of `scored = sorted(zip(self.labels, label_scores),
key=lambda x: x[1], reverse=True)`: the stable descending sort of the
label/score pairs.  As in Python, `zip` truncates to the shorter list. -/
def rankRow (labels : List String) (label_scores : List ℚ) :
    List (String × ℚ) :=
  List.insertionSort scoreGe (labels.zip label_scores)

/-- Embedding of the threshold test of `predict`: `pred, score = scored[0]`
followed by `if self.threshold is not None and score < self.threshold:
pred = self.null_label`. -/
def applyThreshold (c : ZeroShotClassifier Emb) (pred : String) (score : ℚ) :
    String :=
  match c.threshold with
  | some t => if score < t then c.null_label else pred
  | none => pred

/-- Embedding of the row loop of `predict` over the similarity matrix rows
`S[i].tolist()`: per row, sort the zipped label scores, take `scored[0]`
(an `IndexError` when `scored` is empty), apply the threshold, and
accumulate the predicted labels and the ranked score lists. -/
def predictLoop (c : ZeroShotClassifier Emb) :
    List (List ℚ) → Except String (List String × List (List (String × ℚ)))
  | [] => .ok ([], [])
  | label_scores :: rest =>
    match rankRow c.labels label_scores with
    | [] => .error "IndexError: list index out of range"
    | (pred, score) :: scoredTail => do
      let (preds, scoress) ← predictLoop c rest
      .ok (applyThreshold c pred score :: preds,
           ((pred, score) :: scoredTail) :: scoress)

/-- The value `predict` returns: only the predicted labels when
`output_scores` is false, the pair of predicted labels and ranked score
lists when it is true. -/
inductive PredictOutput where
  | labelsOnly (predicted_labels : List String)
  | withScores (predicted_labels : List String)
      (predicted_scores : List (List (String × ℚ)))
  deriving DecidableEq, Repr

/-- Embedding of the input resolution of `predict`:
`if input_embeddings is None: input_embeddings = self.model.encode(input_texts)`.
Besides the embeddings it returns the log of text lists passed to
`self.model.encode` during this step.  Encoding `None` raises a
`TypeError`. -/
def ZeroShotClassifier.encodeInputs (c : ZeroShotClassifier Emb)
    (input_texts : Option (List String))
    (input_embeddings : Option (List Emb)) :
    Except String (List Emb × List (List String)) :=
  match input_embeddings with
  | some es => .ok (es, [])
  | none =>
    match input_texts with
    | some ts => .ok (ts.map c.model, [ts])
    | none => .error "TypeError: model.encode of None"

/-- Embedding of `ZeroShotClassifier.predict`, instrumented: besides the
returned value it passes back the classifier state visible after the call
(the method body assigns no attribute, so it is the input state) and the
log of text lists encoded during the call.  `sim` stands for the library
call `util.pytorch_cos_sim`, and `S` is the similarity matrix with one row
per input embedding; `util.pytorch_cos_sim(..., None)` before `train`
raises a `TypeError`. -/
def ZeroShotClassifier.predictSt (c : ZeroShotClassifier Emb)
    (sim : Emb → Emb → ℚ) (input_texts : Option (List String))
    (input_embeddings : Option (List Emb)) (output_scores : Bool) :
    Except String
      (PredictOutput × ZeroShotClassifier Emb × List (List String)) :=
  match c.encodeInputs input_texts input_embeddings with
  | .error e => .error e
  | .ok (embs, log) =>
    match c.label_embeddings with
    | none => .error "TypeError: pytorch_cos_sim of None"
    | some lembs =>
      match predictLoop c (embs.map fun e => lembs.map (sim e)) with
      | .error e => .error e
      | .ok (predicted_labels, predicted_scores) =>
        .ok (if output_scores then
              PredictOutput.withScores predicted_labels predicted_scores
            else PredictOutput.labelsOnly predicted_labels,
          c, log)

/-- The value returned by `ZeroShotClassifier.predict` (instrumentation
dropped). -/
def ZeroShotClassifier.predict (c : ZeroShotClassifier Emb)
    (sim : Emb → Emb → ℚ) (input_texts : Option (List String))
    (input_embeddings : Option (List Emb)) (output_scores : Bool) :
    Except String PredictOutput :=
  (c.predictSt sim input_texts input_embeddings output_scores).map
    fun r => r.1

/-- The earliest pair of maximal score in a list, or `none` when empty;
this characterises the head of the stable descending sort. -/
def firstMax : List (String × ℚ) → Option (String × ℚ)
  | [] => none
  | a :: l =>
    match firstMax l with
    | none => some a
    | some q => some (if q.2 ≤ a.2 then a else q)

/-! ### Lemmas about the stable descending sort -/

theorem head?_orderedInsert (a : String × ℚ) (l : List (String × ℚ)) :
    (List.orderedInsert scoreGe a l).head? =
      some (match l.head? with
            | none => a
            | some b => if b.2 ≤ a.2 then a else b) := by
  cases l with
  | nil => rfl
  | cons b t =>
    simp only [List.orderedInsert]
    by_cases h : scoreGe a b
    · rw [if_pos h]
      simp [List.head?, if_pos (show b.2 ≤ a.2 from h)]
    · rw [if_neg h]
      simp [List.head?, if_neg (show ¬ b.2 ≤ a.2 from h)]

theorem head?_insertionSort (l : List (String × ℚ)) :
    (List.insertionSort scoreGe l).head? = firstMax l := by
  induction l with
  | nil => rfl
  | cons a l ih =>
    simp only [List.insertionSort]
    rw [head?_orderedInsert, ih]
    cases hf : firstMax l <;> simp [firstMax, hf]

theorem firstMax_spec :
    ∀ l : List (String × ℚ), l ≠ [] →
      ∃ j, ∃ hj : j < l.length, firstMax l = some (l.get ⟨j, hj⟩) ∧
        (∀ k, ∀ hk : k < l.length, (l.get ⟨k, hk⟩).2 ≤ (l.get ⟨j, hj⟩).2) ∧
        (∀ k, k < j → ∀ hk : k < l.length,
          (l.get ⟨k, hk⟩).2 < (l.get ⟨j, hj⟩).2)
  | [], h => absurd rfl h
  | [a], _ => by
    refine ⟨0, by simp, rfl, ?_, ?_⟩
    · intro k hk
      have hk0 : k = 0 := by simpa using hk
      subst hk0
      exact le_refl _
    · intro k hklt hk
      omega
  | a :: b :: t, _ => by
    obtain ⟨j, hj, hfm, hmax, hfirst⟩ := firstMax_spec (b :: t) (by simp)
    by_cases hcmp : ((b :: t).get ⟨j, hj⟩).2 ≤ a.2
    · refine ⟨0, by simp, ?_, ?_, ?_⟩
      · show (match firstMax (b :: t) with
              | none => some a
              | some q => some (if q.2 ≤ a.2 then a else q)) = some a
        rw [hfm]
        show some (if ((b :: t).get ⟨j, hj⟩).2 ≤ a.2 then a
              else (b :: t).get ⟨j, hj⟩) = some a
        rw [if_pos hcmp]
      · intro k hk
        cases k with
        | zero => exact le_refl _
        | succ k =>
          have hk2 : k < (b :: t).length := by
            simp only [List.length_cons] at hk ⊢
            omega
          calc ((a :: b :: t).get ⟨k + 1, hk⟩).2
              = ((b :: t).get ⟨k, hk2⟩).2 := rfl
            _ ≤ ((b :: t).get ⟨j, hj⟩).2 := hmax k hk2
            _ ≤ a.2 := hcmp
      · intro k hklt hk
        omega
    · push_neg at hcmp
      have hj1 : j + 1 < (a :: b :: t).length := by
        have := hj
        simp at this ⊢
        omega
      refine ⟨j + 1, hj1, ?_, ?_, ?_⟩
      · show (match firstMax (b :: t) with
              | none => some a
              | some q => some (if q.2 ≤ a.2 then a else q)) =
            some ((a :: b :: t).get ⟨j + 1, hj1⟩)
        rw [hfm]
        have hg : ((a :: b :: t).get ⟨j + 1, hj1⟩) = (b :: t).get ⟨j, hj⟩ := rfl
        rw [hg]
        show some (if ((b :: t).get ⟨j, hj⟩).2 ≤ a.2 then a
              else (b :: t).get ⟨j, hj⟩) = some ((b :: t).get ⟨j, hj⟩)
        rw [if_neg (not_le.mpr hcmp)]
      · intro k hk
        cases k with
        | zero =>
          show a.2 ≤ ((b :: t).get ⟨j, hj⟩).2
          exact le_of_lt hcmp
        | succ k =>
          have hk2 : k < (b :: t).length := by
            simp only [List.length_cons] at hk ⊢
            omega
          show ((b :: t).get ⟨k, hk2⟩).2 ≤ ((b :: t).get ⟨j, hj⟩).2
          exact hmax k hk2
      · intro k hklt hk
        cases k with
        | zero =>
          show a.2 < ((b :: t).get ⟨j, hj⟩).2
          exact hcmp
        | succ k =>
          have hk2 : k < (b :: t).length := by
            simp only [List.length_cons] at hk ⊢
            omega
          show ((b :: t).get ⟨k, hk2⟩).2 < ((b :: t).get ⟨j, hj⟩).2
          exact hfirst k (by omega) hk2

theorem get_zip_pair (L : List String) (r : List ℚ) (k : ℕ)
    (hk : k < (L.zip r).length) (hkL : k < L.length) (hkr : k < r.length) :
    (L.zip r).get ⟨k, hk⟩ = (L.get ⟨k, hkL⟩, r.get ⟨k, hkr⟩) := by
  simp [List.get_eq_getElem, List.getElem_zip]

theorem rankRow_head (L : List String) (r : List ℚ) (p : String) (s : ℚ)
    (scoredTail : List (String × ℚ))
    (h : rankRow L r = (p, s) :: scoredTail) :
    ∃ j, ∃ hjL : j < L.length, ∃ hjr : j < r.length,
      p = L.get ⟨j, hjL⟩ ∧ s = r.get ⟨j, hjr⟩ ∧
      (∀ k, ∀ hkL : k < L.length, ∀ hkr : k < r.length,
        r.get ⟨k, hkr⟩ ≤ s) ∧
      (∀ k, k < j → ∀ hkr : k < r.length, r.get ⟨k, hkr⟩ < s) := by
  have hfm : firstMax (L.zip r) = some (p, s) := by
    rw [← head?_insertionSort]
    show (rankRow L r).head? = some (p, s)
    rw [h]
    rfl
  have hne : L.zip r ≠ [] := by
    intro hnil
    rw [hnil] at hfm
    exact Option.noConfusion hfm
  obtain ⟨j, hj, hfm2, hmax, hfirst⟩ := firstMax_spec _ hne
  have hjL : j < L.length := by
    have := hj
    rw [List.length_zip] at this
    omega
  have hjr : j < r.length := by
    have := hj
    rw [List.length_zip] at this
    omega
  rw [hfm, get_zip_pair L r j hj hjL hjr] at hfm2
  have hps : p = L.get ⟨j, hjL⟩ ∧ s = r.get ⟨j, hjr⟩ := by
    have := Option.some.inj hfm2
    exact ⟨congrArg Prod.fst this, congrArg Prod.snd this⟩
  refine ⟨j, hjL, hjr, hps.1, hps.2, ?_, ?_⟩
  · intro k hkL hkr
    have hk : k < (L.zip r).length := by
      rw [List.length_zip]
      omega
    have := hmax k hk
    rw [get_zip_pair L r k hk hkL hkr, get_zip_pair L r j hj hjL hjr] at this
    rw [hps.2]
    exact this
  · intro k hklt hkr
    have hkL : k < L.length := by omega
    have hk : k < (L.zip r).length := by
      rw [List.length_zip]
      omega
    have := hfirst k hklt hk
    rw [get_zip_pair L r k hk hkL hkr, get_zip_pair L r j hj hjL hjr] at this
    rw [hps.2]
    exact this

theorem rankRow_ne_nil {L : List String} {r : List ℚ}
    (hl : L ≠ []) (hr : r ≠ []) : rankRow L r ≠ [] := by
  intro h
  have hlen := (List.perm_insertionSort scoreGe (L.zip r)).length_eq
  rw [show List.insertionSort scoreGe (L.zip r) = rankRow L r from rfl] at hlen
  rw [h, List.length_zip] at hlen
  have h1 : L.length ≠ 0 := fun h0 => hl (List.length_eq_zero.mp h0)
  have h2 : r.length ≠ 0 := fun h0 => hr (List.length_eq_zero.mp h0)
  simp at hlen
  omega

/-! ### Lemmas about the predict loop and predict -/

theorem predictLoop_ok (c : ZeroShotClassifier Emb) (S : List (List ℚ))
    (hlab : c.labels ≠ []) (hrows : ∀ r, r ∈ S → r ≠ []) :
    ∃ preds scoress, predictLoop c S = .ok (preds, scoress) ∧
      preds.length = S.length ∧ scoress.length = S.length ∧
      ∀ i, ∀ hi : i < S.length, ∀ hp : i < preds.length,
        ∀ hs : i < scoress.length,
        scoress.get ⟨i, hs⟩ = rankRow c.labels (S.get ⟨i, hi⟩) ∧
        ∃ pred score scoredTail,
          rankRow c.labels (S.get ⟨i, hi⟩) = (pred, score) :: scoredTail ∧
          preds.get ⟨i, hp⟩ = applyThreshold c pred score := by
  induction S with
  | nil =>
    refine ⟨[], [], rfl, rfl, rfl, ?_⟩
    intro i hi
    simp at hi
  | cons r S ih =>
    have hr : r ≠ [] := hrows r (List.mem_cons_self r S)
    have hrank : rankRow c.labels r ≠ [] := rankRow_ne_nil hlab hr
    obtain ⟨preds, scoress, hloop, hlp, hls, hidx⟩ :=
      ih fun x hx => hrows x (List.mem_cons_of_mem r hx)
    cases hscored : rankRow c.labels r with
    | nil => exact absurd hscored hrank
    | cons ps scoredTail =>
      obtain ⟨pred, score⟩ := ps
      refine ⟨applyThreshold c pred score :: preds,
        ((pred, score) :: scoredTail) :: scoress, ?_, by simp [hlp],
        by simp [hls], ?_⟩
      · show predictLoop c (r :: S) = _
        simp only [predictLoop]
        rw [hscored, hloop]
        rfl
      · intro i hi hp hs
        cases i with
        | zero => exact ⟨hscored.symm, pred, score, scoredTail, hscored, rfl⟩
        | succ i =>
          have hi2 : i < S.length := by
            simp only [List.length_cons] at hi ⊢
            omega
          have hp2 : i < preds.length := by
            simp only [List.length_cons] at hp
            omega
          have hs2 : i < scoress.length := by
            simp only [List.length_cons] at hs
            omega
          exact hidx i hi2 hp2 hs2

theorem predictSt_some (c : ZeroShotClassifier Emb) (sim : Emb → Emb → ℚ)
    (its : Option (List String)) (es : List Emb) (lembs : List Emb)
    (os : Bool) (hle : c.label_embeddings = some lembs) :
    c.predictSt sim its (some es) os =
      (predictLoop c (es.map fun e => lembs.map (sim e))).map
        (fun pr =>
          (if os then PredictOutput.withScores pr.1 pr.2
            else PredictOutput.labelsOnly pr.1, c, [])) := by
  cases hloop : predictLoop c (es.map fun e => lembs.map (sim e)) with
  | error msg =>
    simp [ZeroShotClassifier.predictSt, ZeroShotClassifier.encodeInputs,
      hle, hloop, Except.map]
  | ok pr =>
    obtain ⟨preds, scoress⟩ := pr
    simp [ZeroShotClassifier.predictSt, ZeroShotClassifier.encodeInputs,
      hle, hloop, Except.map]

theorem predict_texts_eq (c : ZeroShotClassifier Emb) (sim : Emb → Emb → ℚ)
    (ts : List String) (os : Bool) :
    c.predict sim (some ts) none os =
      c.predict sim none (some (ts.map c.model)) os := by
  cases hle : c.label_embeddings with
  | none =>
    simp [ZeroShotClassifier.predict, ZeroShotClassifier.predictSt,
      ZeroShotClassifier.encodeInputs, hle]
  | some lembs =>
    cases hloop : predictLoop c ((ts.map c.model).map fun e =>
        lembs.map (sim e)) with
    | error msg =>
      rw [List.map_map] at hloop
      simp [ZeroShotClassifier.predict, ZeroShotClassifier.predictSt,
        ZeroShotClassifier.encodeInputs, hle, hloop, Except.map]
    | ok pr =>
      obtain ⟨preds, scoress⟩ := pr
      rw [List.map_map] at hloop
      simp [ZeroShotClassifier.predict, ZeroShotClassifier.predictSt,
        ZeroShotClassifier.encodeInputs, hle, hloop, Except.map]

theorem predictSt_untrained (c : ZeroShotClassifier Emb)
    (hle : c.label_embeddings = none) (sim : Emb → Emb → ℚ)
    (its : Option (List String)) (ies : Option (List Emb)) (os : Bool) :
    ∃ msg, c.predictSt sim its ies os = .error msg := by
  rcases ies with _ | es
  · rcases its with _ | ts
    · refine ⟨"TypeError: model.encode of None", ?_⟩
      simp only [ZeroShotClassifier.predictSt,
        ZeroShotClassifier.encodeInputs, hle]
    · refine ⟨"TypeError: pytorch_cos_sim of None", ?_⟩
      simp only [ZeroShotClassifier.predictSt,
        ZeroShotClassifier.encodeInputs, hle]
  · refine ⟨"TypeError: pytorch_cos_sim of None", ?_⟩
    simp only [ZeroShotClassifier.predictSt,
      ZeroShotClassifier.encodeInputs, hle]

theorem predictSt_ok_inv (c : ZeroShotClassifier Emb) (sim : Emb → Emb → ℚ)
    (its : Option (List String)) (ies : Option (List Emb)) (os : Bool)
    (out : PredictOutput) (c2 : ZeroShotClassifier Emb)
    (log : List (List String))
    (h : c.predictSt sim its ies os = .ok (out, c2, log)) :
    c2 = c ∧ (∀ x, x ∈ log → its = some x ∧ ies = none) := by
  rcases hle : c.label_embeddings with _ | lembs
  · obtain ⟨msg, hmsg⟩ := predictSt_untrained c hle sim its ies os
    rw [hmsg] at h
    exact absurd h (by simp)
  · rcases ies with _ | es
    · rcases its with _ | ts
      · simp [ZeroShotClassifier.predictSt,
          ZeroShotClassifier.encodeInputs, hle] at h
      · cases hloop : predictLoop c ((ts.map c.model).map fun e =>
            lembs.map (sim e)) with
        | error msg =>
          rw [List.map_map] at hloop
          simp [ZeroShotClassifier.predictSt,
            ZeroShotClassifier.encodeInputs, hle, hloop] at h
        | ok pr =>
          obtain ⟨preds, scoress⟩ := pr
          rw [List.map_map] at hloop
          simp [ZeroShotClassifier.predictSt,
            ZeroShotClassifier.encodeInputs, hle, hloop] at h
          refine ⟨h.2.1.symm, ?_⟩
          intro x hx
          rw [← h.2.2] at hx
          simp at hx
          exact ⟨by rw [hx], rfl⟩
    · cases hloop : predictLoop c (es.map fun e => lembs.map (sim e)) with
      | error msg =>
        simp [ZeroShotClassifier.predictSt,
          ZeroShotClassifier.encodeInputs, hle, hloop] at h
      | ok pr =>
        obtain ⟨preds, scoress⟩ := pr
        simp [ZeroShotClassifier.predictSt,
          ZeroShotClassifier.encodeInputs, hle, hloop] at h
        refine ⟨h.2.1.symm, ?_⟩
        intro x hx
        rw [h.2.2] at hx
        simp at hx

/-! ### Lemmas about read_dataset -/

theorem parseLine_ok_of_len (l : List Char)
    (h : (splitTab (pyStrip l)).length = 3) :
    parseLine l = .ok
      { id := (splitTab (pyStrip l)).getD 0 [],
        text := (splitTab (pyStrip l)).getD 1 [],
        label := (splitTab (pyStrip l)).getD 2 [] } := by
  unfold parseLine
  rcases hsp : splitTab (pyStrip l) with _ | ⟨a, _ | ⟨b, _ | ⟨c, _ | ⟨d, rest⟩⟩⟩⟩ <;>
    rw [hsp] at h <;> simp at h
  rfl

theorem parseLine_error_of_len (l : List Char)
    (h : (splitTab (pyStrip l)).length ≠ 3) :
    ∃ msg, parseLine l = .error msg := by
  unfold parseLine
  rcases hsp : splitTab (pyStrip l) with _ | ⟨a, _ | ⟨b, _ | ⟨c, _ | ⟨d, rest⟩⟩⟩⟩
  · exact ⟨_, rfl⟩
  · exact ⟨_, rfl⟩
  · exact ⟨_, rfl⟩
  · exact absurd (by rw [hsp]; rfl) h
  · refine ⟨"ValueError: too many values to unpack", ?_⟩
    have hlt : ¬ (a :: b :: c :: d :: rest).length < 3 := by simp
    show (if (a :: b :: c :: d :: rest).length < 3 then
        Except.error "ValueError: not enough values to unpack"
      else Except.error "ValueError: too many values to unpack") = _
    rw [if_neg hlt]

theorem readLines_error (ls : List (List Char))
    (h : ∃ line, line ∈ ls ∧ (splitTab (pyStrip line)).length ≠ 3) :
    ∃ msg, readLines ls = .error msg := by
  induction ls with
  | nil =>
    obtain ⟨line, hline, _⟩ := h
    simp at hline
  | cons l ls ih =>
    obtain ⟨bad, hbad, hlen⟩ := h
    by_cases hgood : (splitTab (pyStrip l)).length = 3
    · have hbad2 : bad ∈ ls := by
        rcases List.mem_cons.mp hbad with h1 | h1
        · exact absurd (h1 ▸ hgood) hlen
        · exact h1
      obtain ⟨msg, hmsg⟩ := ih ⟨bad, hbad2, hlen⟩
      refine ⟨msg, ?_⟩
      show (do
        let item ← parseLine l
        let tail ← readLines ls
        Except.ok (item :: tail)) = Except.error msg
      rw [parseLine_ok_of_len l hgood, hmsg]
      rfl
    · obtain ⟨msg, hmsg⟩ := parseLine_error_of_len l hgood
      refine ⟨msg, ?_⟩
      show (do
        let item ← parseLine l
        let tail ← readLines ls
        Except.ok (item :: tail)) = Except.error msg
      rw [hmsg]
      rfl

theorem readLines_ok (ls : List (List Char))
    (h : ∀ line, line ∈ ls → (splitTab (pyStrip line)).length = 3) :
    ∃ recs, readLines ls = .ok recs ∧ recs.length = ls.length ∧
      ∀ i, ∀ hi : i < ls.length, ∀ hr : i < recs.length,
        recs.get ⟨i, hr⟩ =
          { id := (splitTab (pyStrip (ls.get ⟨i, hi⟩))).getD 0 [],
            text := (splitTab (pyStrip (ls.get ⟨i, hi⟩))).getD 1 [],
            label := (splitTab (pyStrip (ls.get ⟨i, hi⟩))).getD 2 [] } := by
  induction ls with
  | nil =>
    refine ⟨[], rfl, rfl, ?_⟩
    intro i hi
    simp at hi
  | cons l ls ih =>
    have hl := h l (List.mem_cons_self l ls)
    obtain ⟨recs, hrecs, hlen, hidx⟩ :=
      ih fun x hx => h x (List.mem_cons_of_mem l hx)
    refine ⟨{ id := (splitTab (pyStrip l)).getD 0 [],
              text := (splitTab (pyStrip l)).getD 1 [],
              label := (splitTab (pyStrip l)).getD 2 [] } :: recs,
      ?_, by simp [hlen], ?_⟩
    · show (do
        let item ← parseLine l
        let tail ← readLines ls
        Except.ok (item :: tail)) = _
      rw [parseLine_ok_of_len l hl, hrecs]
      rfl
    · intro i hi hr
      cases i with
      | zero => rfl
      | succ i =>
        have hi2 : i < ls.length := by
          simp only [List.length_cons] at hi ⊢
          omega
        have hr2 : i < recs.length := by
          simp only [List.length_cons] at hr
          omega
        exact hidx i hi2 hr2

/-- For a trained classifier and an input given as embeddings, predict
succeeds and its outputs are characterised row by row through `rankRow`
and `applyThreshold`. -/
theorem predict_trained (c : ZeroShotClassifier Emb) (lembs : List Emb)
    (sim : Emb → Emb → ℚ) (es : List Emb)
    (hle : c.label_embeddings = some lembs) (hlab : c.labels ≠ [])
    (hlembs : lembs ≠ []) :
    ∃ preds scoress,
      c.predict sim none (some es) true =
        .ok (PredictOutput.withScores preds scoress) ∧
      c.predict sim none (some es) false =
        .ok (PredictOutput.labelsOnly preds) ∧
      preds.length = es.length ∧ scoress.length = es.length ∧
      ∀ i, ∀ hi : i < es.length, ∀ hp : i < preds.length,
        ∀ hs : i < scoress.length,
        scoress.get ⟨i, hs⟩ =
          rankRow c.labels (lembs.map (sim (es.get ⟨i, hi⟩))) ∧
        ∃ pred score scoredTail,
          rankRow c.labels (lembs.map (sim (es.get ⟨i, hi⟩))) =
            (pred, score) :: scoredTail ∧
          preds.get ⟨i, hp⟩ = applyThreshold c pred score := by
  have hrows : ∀ r, r ∈ es.map (fun e => lembs.map (sim e)) → r ≠ [] := by
    intro r hr
    obtain ⟨e, _, he⟩ := List.mem_map.mp hr
    rw [← he]
    intro hnil
    exact hlembs (List.map_eq_nil_iff.mp hnil)
  obtain ⟨preds, scoress, hloop, hlp, hls, hidx⟩ :=
    predictLoop_ok c (es.map fun e => lembs.map (sim e)) hlab hrows
  have hSlen : (es.map fun e => lembs.map (sim e)).length = es.length :=
    List.length_map es _
  refine ⟨preds, scoress, ?_, ?_, by rw [hlp, hSlen], by rw [hls, hSlen], ?_⟩
  · unfold ZeroShotClassifier.predict
    rw [predictSt_some c sim none es lembs true hle, hloop]
    rfl
  · unfold ZeroShotClassifier.predict
    rw [predictSt_some c sim none es lembs false hle, hloop]
    rfl
  · intro i hi hp hs
    have hi2 : i < (es.map fun e => lembs.map (sim e)).length := by
      rw [hSlen]
      exact hi
    have hSget : (es.map fun e => lembs.map (sim e)).get ⟨i, hi2⟩ =
        lembs.map (sim (es.get ⟨i, hi⟩)) := by
      simp [List.get_eq_getElem, List.getElem_map]
    have := hidx i hi2 hp hs
    rw [hSget] at this
    exact this

/-- The threshold substitution returns either the sorted head label or the
null label. -/
theorem applyThreshold_cases (c : ZeroShotClassifier Emb) (p : String)
    (s : ℚ) : applyThreshold c p s = p ∨ applyThreshold c p s = c.null_label := by
  unfold applyThreshold
  rcases c.threshold with _ | t
  · exact Or.inl rfl
  · by_cases hs : s < t
    · refine Or.inr ?_
      show (if s < t then c.null_label else p) = c.null_label
      rw [if_pos hs]
    · refine Or.inl ?_
      show (if s < t then c.null_label else p) = p
      rw [if_neg hs]

/-! ### Claim theorems -/

/-- C3: train encodes the descriptions with the notebook-global variable
`model` rather than the constructor's model argument, so two classifiers
constructed with different models but trained under the same global binding
have identical labels and label embeddings, while predict encodes its input
texts with the instance's own self.model. -/
theorem c3_train_global_model (Emb : Type) (g m1 m2 : String → Emb)
    (th : Option ℚ) (nl : String) (L D : List String) :
    ((ZeroShotClassifier.init m1 th nl).train g L D).label_embeddings =
      ((ZeroShotClassifier.init m2 th nl).train g L D).label_embeddings ∧
    ((ZeroShotClassifier.init m1 th nl).train g L D).labels =
      ((ZeroShotClassifier.init m2 th nl).train g L D).labels ∧
    ∀ (c : ZeroShotClassifier Emb) (sim : Emb → Emb → ℚ)
      (ts : List String) (os : Bool),
      c.predict sim (some ts) none os =
        c.predict sim none (some (ts.map c.model)) os :=
  ⟨rfl, rfl, fun c sim ts os => predict_texts_eq c sim ts os⟩

/-- C1: with no threshold, predict returns for every input row a trained
label whose similarity with the row embedding is maximal over all trained
labels, and on ties the label coming first in the trained order. -/
theorem c1_predict_max_similarity (Emb : Type) (g m : String → Emb)
    (nl : String) (L D : List String) (sim : Emb → Emb → ℚ) (es : List Emb)
    (hL : L ≠ []) (hLD : L.length = D.length) :
    ∃ preds,
      ((ZeroShotClassifier.init m none nl).train g L D).predict sim none
          (some es) false = .ok (PredictOutput.labelsOnly preds) ∧
      preds.length = es.length ∧
      ∀ i, ∀ hi : i < es.length, ∀ hp : i < preds.length,
        ∃ j, ∃ hjL : j < L.length, ∃ hjD : j < D.length,
          preds.get ⟨i, hp⟩ = L.get ⟨j, hjL⟩ ∧
          (∀ k, ∀ hk : k < D.length,
            sim (es.get ⟨i, hi⟩) (g (D.get ⟨k, hk⟩)) ≤
              sim (es.get ⟨i, hi⟩) (g (D.get ⟨j, hjD⟩))) ∧
          (∀ k, k < j → ∀ hk : k < D.length,
            sim (es.get ⟨i, hi⟩) (g (D.get ⟨k, hk⟩)) <
              sim (es.get ⟨i, hi⟩) (g (D.get ⟨j, hjD⟩))) := by
  have hD : D ≠ [] := by
    intro h0
    rw [h0] at hLD
    simp at hLD
    exact hL hLD
  have hlembs : D.map g ≠ [] := by
    intro h0
    exact hD (List.map_eq_nil_iff.mp h0)
  obtain ⟨preds, scoress, _, hok, hlp, hls, hidx⟩ :=
    predict_trained ((ZeroShotClassifier.init m none nl).train g L D)
      (D.map g) sim es rfl hL hlembs
  refine ⟨preds, hok, hlp, ?_⟩
  intro i hi hp
  have hs : i < scoress.length := by rw [hls]; exact hi
  obtain ⟨_, pred, score, scoredTail, hrank, hpred⟩ := hidx i hi hp hs
  obtain ⟨j, hjL, hjr, hpj, hsj, hmax, hfirst⟩ :=
    rankRow_head L ((D.map g).map (sim (es.get ⟨i, hi⟩))) pred score
      scoredTail hrank
  have hrlen : ((D.map g).map (sim (es.get ⟨i, hi⟩))).length = D.length := by
    rw [List.length_map, List.length_map]
  have hget : ∀ k, ∀ hk : k < D.length,
      ∀ hk2 : k < ((D.map g).map (sim (es.get ⟨i, hi⟩))).length,
      ((D.map g).map (sim (es.get ⟨i, hi⟩))).get ⟨k, hk2⟩ =
        sim (es.get ⟨i, hi⟩) (g (D.get ⟨k, hk⟩)) := by
    intro k hk hk2
    simp [List.get_eq_getElem, List.getElem_map]
  have hjD : j < D.length := by rw [hrlen] at hjr; exact hjr
  refine ⟨j, hjL, hjD, ?_, ?_, ?_⟩
  · rw [hpred, hpj]
    rfl
  · intro k hk
    have hk2 : k < ((D.map g).map (sim (es.get ⟨i, hi⟩))).length := by
      rw [hrlen]
      exact hk
    have := hmax k (by rw [hLD]; exact hk) hk2
    rw [hget k hk hk2] at this
    rw [hsj, hget j hjD hjr] at this
    exact this
  · intro k hklt hk
    have hk2 : k < ((D.map g).map (sim (es.get ⟨i, hi⟩))).length := by
      rw [hrlen]
      exact hk
    have := hfirst k hklt hk2
    rw [hget k hk hk2] at this
    rw [hsj, hget j hjD hjr] at this
    exact this

/-- Witness for C1 at a concrete classifier with two labels and a tie. -/
theorem c1_predict_max_similarity_witness :
    ∃ preds,
      ((ZeroShotClassifier.init (fun _ => (0 : ℚ)) none "OTHER").train
          (fun s => (s.length : ℚ)) ["A", "B"] ["aa", "bb"]).predict
          (fun a b => a * b) none (some [(1 : ℚ)]) false =
        .ok (PredictOutput.labelsOnly preds) ∧
      preds.length = ([(1 : ℚ)] : List ℚ).length ∧
      ∀ i, ∀ hi : i < ([(1 : ℚ)] : List ℚ).length, ∀ hp : i < preds.length,
        ∃ j, ∃ hjL : j < (["A", "B"] : List String).length,
          ∃ hjD : j < (["aa", "bb"] : List String).length,
          preds.get ⟨i, hp⟩ = (["A", "B"] : List String).get ⟨j, hjL⟩ ∧
          (∀ k, ∀ hk : k < (["aa", "bb"] : List String).length,
            (fun a b => a * b) (([(1 : ℚ)] : List ℚ).get ⟨i, hi⟩)
                ((fun s => (s.length : ℚ))
                  ((["aa", "bb"] : List String).get ⟨k, hk⟩)) ≤
              (fun a b => a * b) (([(1 : ℚ)] : List ℚ).get ⟨i, hi⟩)
                ((fun s => (s.length : ℚ))
                  ((["aa", "bb"] : List String).get ⟨j, hjD⟩))) ∧
          (∀ k, k < j → ∀ hk : k < (["aa", "bb"] : List String).length,
            (fun a b => a * b) (([(1 : ℚ)] : List ℚ).get ⟨i, hi⟩)
                ((fun s => (s.length : ℚ))
                  ((["aa", "bb"] : List String).get ⟨k, hk⟩)) <
              (fun a b => a * b) (([(1 : ℚ)] : List ℚ).get ⟨i, hi⟩)
                ((fun s => (s.length : ℚ))
                  ((["aa", "bb"] : List String).get ⟨j, hjD⟩))) :=
  c1_predict_max_similarity ℚ (fun s => (s.length : ℚ)) (fun _ => (0 : ℚ))
    "OTHER" ["A", "B"] ["aa", "bb"] (fun a b => a * b) [(1 : ℚ)]
    (by decide) (by decide)

/-- C4: with output_scores true, predict returns one predicted label per
input row and, for every row, the complete ranked list of label/score pairs
covering every trained label, sorted by non-increasing score; with
output_scores false only the predicted labels are returned. -/
theorem c4_output_scores_shape (Emb : Type) (g m : String → Emb)
    (th : Option ℚ) (nl : String) (L D : List String)
    (sim : Emb → Emb → ℚ) (es : List Emb)
    (hL : L ≠ []) (hLD : L.length = D.length) :
    ∃ preds scoress,
      ((ZeroShotClassifier.init m th nl).train g L D).predict sim none
          (some es) true = .ok (PredictOutput.withScores preds scoress) ∧
      ((ZeroShotClassifier.init m th nl).train g L D).predict sim none
          (some es) false = .ok (PredictOutput.labelsOnly preds) ∧
      preds.length = es.length ∧ scoress.length = es.length ∧
      ∀ row, row ∈ scoress →
        List.Perm (row.map Prod.fst) L ∧
        List.Pairwise (fun a b : String × ℚ => b.2 ≤ a.2) row := by
  have hD : D ≠ [] := by
    intro h0
    rw [h0] at hLD
    simp at hLD
    exact hL hLD
  have hlembs : D.map g ≠ [] := by
    intro h0
    exact hD (List.map_eq_nil_iff.mp h0)
  obtain ⟨preds, scoress, hokT, hokF, hlp, hls, hidx⟩ :=
    predict_trained ((ZeroShotClassifier.init m th nl).train g L D)
      (D.map g) sim es rfl hL hlembs
  refine ⟨preds, scoress, hokT, hokF, hlp, hls, ?_⟩
  intro row hrow
  obtain ⟨⟨i, hs⟩, hieq⟩ := List.mem_iff_get.mp hrow
  have hi : i < es.length := by rw [← hls]; exact hs
  have hp : i < preds.length := by rw [hlp]; exact hi
  obtain ⟨hroweq, _⟩ := hidx i hi hp hs
  rw [← hieq, hroweq]
  have hrlen : ((D.map g).map (sim (es.get ⟨i, hi⟩))).length = L.length := by
    rw [List.length_map, List.length_map, hLD]
  constructor
  · have hperm :
        List.Perm (rankRow L ((D.map g).map (sim (es.get ⟨i, hi⟩))))
          (L.zip ((D.map g).map (sim (es.get ⟨i, hi⟩)))) :=
      List.perm_insertionSort scoreGe _
    have hmapped := hperm.map Prod.fst
    have hfst : (L.zip ((D.map g).map (sim (es.get ⟨i, hi⟩)))).map
        Prod.fst = L :=
      List.map_fst_zip L _ (by rw [hrlen])
    rw [hfst] at hmapped
    exact hmapped
  · exact List.sorted_insertionSort scoreGe
      (L.zip ((D.map g).map (sim (es.get ⟨i, hi⟩))))

/-- Witness for C4 at a concrete two-label classifier and one input row. -/
theorem c4_output_scores_shape_witness :
    ∃ preds scoress,
      ((ZeroShotClassifier.init (fun _ => (0 : ℚ)) (some 1) "OTHER").train
          (fun s => (s.length : ℚ)) ["A", "B"] ["aa", "b"]).predict
          (fun a b => a * b) none (some [(2 : ℚ)]) true =
        .ok (PredictOutput.withScores preds scoress) ∧
      ((ZeroShotClassifier.init (fun _ => (0 : ℚ)) (some 1) "OTHER").train
          (fun s => (s.length : ℚ)) ["A", "B"] ["aa", "b"]).predict
          (fun a b => a * b) none (some [(2 : ℚ)]) false =
        .ok (PredictOutput.labelsOnly preds) ∧
      preds.length = ([(2 : ℚ)] : List ℚ).length ∧
      scoress.length = ([(2 : ℚ)] : List ℚ).length ∧
      ∀ row, row ∈ scoress →
        List.Perm (row.map Prod.fst) (["A", "B"] : List String) ∧
        List.Pairwise (fun a b : String × ℚ => b.2 ≤ a.2) row :=
  c4_output_scores_shape ℚ (fun s => (s.length : ℚ)) (fun _ => (0 : ℚ))
    (some 1) "OTHER" ["A", "B"] ["aa", "b"] (fun a b => a * b) [(2 : ℚ)]
    (by decide) (by decide)

/-- C9: the null fallback is monotone in the threshold: with thresholds
t ≤ t2 and all else equal, every row predicted null at t is predicted null
at t2, and rows predicted non-null by both get the same label. -/
theorem c9_threshold_monotone (Emb : Type) (g m : String → Emb) (t t2 : ℚ)
    (nl : String) (L D : List String) (sim : Emb → Emb → ℚ) (es : List Emb)
    (hL : L ≠ []) (hLD : L.length = D.length) (htt : t ≤ t2) :
    ∃ preds1 preds2,
      ((ZeroShotClassifier.init m (some t) nl).train g L D).predict sim none
          (some es) false = .ok (PredictOutput.labelsOnly preds1) ∧
      ((ZeroShotClassifier.init m (some t2) nl).train g L D).predict sim none
          (some es) false = .ok (PredictOutput.labelsOnly preds2) ∧
      preds1.length = es.length ∧ preds2.length = es.length ∧
      ∀ i, ∀ h1 : i < preds1.length, ∀ h2 : i < preds2.length,
        (preds1.get ⟨i, h1⟩ = nl → preds2.get ⟨i, h2⟩ = nl) ∧
        (preds1.get ⟨i, h1⟩ ≠ nl → preds2.get ⟨i, h2⟩ ≠ nl →
          preds1.get ⟨i, h1⟩ = preds2.get ⟨i, h2⟩) := by
  have hD : D ≠ [] := by
    intro h0
    rw [h0] at hLD
    simp at hLD
    exact hL hLD
  have hlembs : D.map g ≠ [] := by
    intro h0
    exact hD (List.map_eq_nil_iff.mp h0)
  obtain ⟨preds1, scoress1, _, hok1, hlp1, hls1, hidx1⟩ :=
    predict_trained ((ZeroShotClassifier.init m (some t) nl).train g L D)
      (D.map g) sim es rfl hL hlembs
  obtain ⟨preds2, scoress2, _, hok2, hlp2, hls2, hidx2⟩ :=
    predict_trained ((ZeroShotClassifier.init m (some t2) nl).train g L D)
      (D.map g) sim es rfl hL hlembs
  refine ⟨preds1, preds2, hok1, hok2, hlp1, hlp2, ?_⟩
  intro i h1 h2
  have hi : i < es.length := by rw [← hlp1]; exact h1
  have hs1 : i < scoress1.length := by rw [hls1]; exact hi
  have hs2 : i < scoress2.length := by rw [hls2]; exact hi
  obtain ⟨_, p1, s1, tail1, hrank1, hpred1⟩ := hidx1 i hi h1 hs1
  obtain ⟨_, p2, s2, tail2, hrank2, hpred2⟩ := hidx2 i hi h2 hs2
  have heads : p1 = p2 ∧ s1 = s2 := by
    have heq := hrank1.symm.trans hrank2
    have hcons := List.cons.inj heq
    exact ⟨congrArg Prod.fst hcons.1, congrArg Prod.snd hcons.1⟩
  obtain ⟨hp12, hs12⟩ := heads
  have h1e : preds1.get ⟨i, h1⟩ = if s1 < t then nl else p1 := hpred1
  have h2e : preds2.get ⟨i, h2⟩ = if s1 < t2 then nl else p1 := by
    rw [hpred2, ← hp12, ← hs12]
    rfl
  constructor
  · intro hnull
    rw [h1e] at hnull
    rw [h2e]
    by_cases hst : s1 < t
    · rw [if_pos (lt_of_lt_of_le hst htt)]
    · rw [if_neg hst] at hnull
      by_cases hst2 : s1 < t2
      · rw [if_pos hst2]
      · rw [if_neg hst2]
        exact hnull
  · intro hn1 hn2
    rw [h1e] at hn1 ⊢
    rw [h2e] at hn2 ⊢
    by_cases hst : s1 < t
    · rw [if_pos hst] at hn1
      exact absurd rfl hn1
    · rw [if_neg hst]
      by_cases hst2 : s1 < t2
      · rw [if_pos hst2] at hn2
        exact absurd rfl hn2
      · rw [if_neg hst2]

/-- Witness for C9 at thresholds 1 ≤ 3 on a one-label classifier. -/
theorem c9_threshold_monotone_witness :
    ∃ preds1 preds2,
      ((ZeroShotClassifier.init (fun _ => (0 : ℚ)) (some 1) "OTHER").train
          (fun s => (s.length : ℚ)) ["A"] ["aa"]).predict
          (fun a b => a * b) none (some [(1 : ℚ)]) false =
        .ok (PredictOutput.labelsOnly preds1) ∧
      ((ZeroShotClassifier.init (fun _ => (0 : ℚ)) (some 3) "OTHER").train
          (fun s => (s.length : ℚ)) ["A"] ["aa"]).predict
          (fun a b => a * b) none (some [(1 : ℚ)]) false =
        .ok (PredictOutput.labelsOnly preds2) ∧
      preds1.length = ([(1 : ℚ)] : List ℚ).length ∧
      preds2.length = ([(1 : ℚ)] : List ℚ).length ∧
      ∀ i, ∀ h1 : i < preds1.length, ∀ h2 : i < preds2.length,
        (preds1.get ⟨i, h1⟩ = "OTHER" → preds2.get ⟨i, h2⟩ = "OTHER") ∧
        (preds1.get ⟨i, h1⟩ ≠ "OTHER" → preds2.get ⟨i, h2⟩ ≠ "OTHER" →
          preds1.get ⟨i, h1⟩ = preds2.get ⟨i, h2⟩) :=
  c9_threshold_monotone ℚ (fun s => (s.length : ℚ)) (fun _ => (0 : ℚ)) 1 3
    "OTHER" ["A"] ["aa"] (fun a b => a * b) [(1 : ℚ)]
    (by decide) (by decide) (by norm_num)

/-- C7: predict on a classifier trained on at least one label returns one
label per input row, each either a trained label or the null label; with an
empty trained label list the scored[0] access fails on any non-empty input;
and predict before train fails rather than returning a value. -/
theorem c7_predict_safety (Emb : Type) (g m : String → Emb) (th : Option ℚ)
    (nl : String) (L D : List String) (sim : Emb → Emb → ℚ)
    (es : List Emb) :
    (L ≠ [] → L.length = D.length →
      ∃ preds,
        ((ZeroShotClassifier.init m th nl).train g L D).predict sim none
            (some es) false = .ok (PredictOutput.labelsOnly preds) ∧
        preds.length = es.length ∧
        ∀ p, p ∈ preds → p ∈ L ∨ p = nl) ∧
    (es ≠ [] →
      ∃ msg,
        ((ZeroShotClassifier.init m th nl).train g [] D).predict sim none
          (some es) false = .error msg) ∧
    (∀ (its : Option (List String)) (ies : Option (List Emb)) (os : Bool),
      ∃ msg,
        (ZeroShotClassifier.init m th nl).predict sim its ies os =
          .error msg) := by
  refine ⟨?_, ?_, ?_⟩
  · intro hL hLD
    have hD : D ≠ [] := by
      intro h0
      rw [h0] at hLD
      simp at hLD
      exact hL hLD
    have hlembs : D.map g ≠ [] := by
      intro h0
      exact hD (List.map_eq_nil_iff.mp h0)
    obtain ⟨preds, scoress, _, hok, hlp, hls, hidx⟩ :=
      predict_trained ((ZeroShotClassifier.init m th nl).train g L D)
        (D.map g) sim es rfl hL hlembs
    refine ⟨preds, hok, hlp, ?_⟩
    intro p hmem
    obtain ⟨⟨i, hp⟩, hieq⟩ := List.mem_iff_get.mp hmem
    have hi : i < es.length := by rw [← hlp]; exact hp
    have hs : i < scoress.length := by rw [hls]; exact hi
    obtain ⟨_, pred, score, scoredTail, hrank, hpred⟩ := hidx i hi hp hs
    obtain ⟨j, hjL, _, hpj, _, _, _⟩ :=
      rankRow_head L ((D.map g).map (sim (es.get ⟨i, hi⟩))) pred score
        scoredTail hrank
    rcases applyThreshold_cases
        ((ZeroShotClassifier.init m th nl).train g L D) pred score with
      hc | hc
    · refine Or.inl ?_
      rw [← hieq, hpred, hc, hpj]
      exact List.get_mem L j hjL
    · refine Or.inr ?_
      rw [← hieq, hpred, hc]
      rfl
  · intro hes
    rcases es with _ | ⟨e, es2⟩
    · exact absurd rfl hes
    · refine ⟨"IndexError: list index out of range", ?_⟩
      have hloop : predictLoop ((ZeroShotClassifier.init m th nl).train g [] D)
          ((e :: es2).map fun x => (D.map g).map (sim x)) =
          .error "IndexError: list index out of range" := rfl
      unfold ZeroShotClassifier.predict
      rw [predictSt_some _ sim none (e :: es2) (D.map g) false rfl, hloop]
      rfl
  · intro its ies os
    obtain ⟨msg, hmsg⟩ :=
      predictSt_untrained (ZeroShotClassifier.init m th nl) rfl sim its ies os
    refine ⟨msg, ?_⟩
    unfold ZeroShotClassifier.predict
    rw [hmsg]
    rfl

/-- Witness for C7 at a concrete one-label classifier and one input row. -/
theorem c7_predict_safety_witness :
    (∃ preds,
      ((ZeroShotClassifier.init (fun _ => (5 : ℚ)) (some 1) "OTHER").train
          (fun s => (s.length : ℚ)) ["A"] ["aa"]).predict
          (fun a b => a * b) none (some [(2 : ℚ)]) false =
        .ok (PredictOutput.labelsOnly preds) ∧
      preds.length = ([(2 : ℚ)] : List ℚ).length ∧
      ∀ p, p ∈ preds → p ∈ (["A"] : List String) ∨ p = "OTHER") ∧
    (∃ msg,
      ((ZeroShotClassifier.init (fun _ => (5 : ℚ)) (some 1) "OTHER").train
          (fun s => (s.length : ℚ)) [] ["aa"]).predict
          (fun a b => a * b) none (some [(2 : ℚ)]) false = .error msg) ∧
    (∀ (its : Option (List String)) (ies : Option (List ℚ)) (os : Bool),
      ∃ msg,
        (ZeroShotClassifier.init (fun _ => (5 : ℚ)) (some 1)
            "OTHER").predict (fun a b => a * b) its ies os = .error msg) :=
  ⟨(c7_predict_safety ℚ (fun s => (s.length : ℚ)) (fun _ => (5 : ℚ)) (some 1)
      "OTHER" ["A"] ["aa"] (fun a b => a * b) [(2 : ℚ)]).1
    (by decide) (by decide),
  (c7_predict_safety ℚ (fun s => (s.length : ℚ)) (fun _ => (5 : ℚ)) (some 1)
      "OTHER" ["A"] ["aa"] (fun a b => a * b) [(2 : ℚ)]).2.1
    (by decide),
  (c7_predict_safety ℚ (fun s => (s.length : ℚ)) (fun _ => (5 : ℚ)) (some 1)
      "OTHER" ["A"] ["aa"] (fun a b => a * b) [(2 : ℚ)]).2.2⟩

/-- C8: the descriptions are encoded exactly once, at train time: train
caches their embeddings, and a successful predict call hands back the
classifier with every field exactly as __init__ and train left it, while the
only text list it may encode is its own input_texts (so the descriptions are
never re-encoded by predict). -/
theorem c8_predict_frame (Emb : Type) (g m : String → Emb) (th : Option ℚ)
    (nl : String) (L D : List String) (sim : Emb → Emb → ℚ)
    (its : Option (List String)) (ies : Option (List Emb)) (os : Bool) :
    ((ZeroShotClassifier.init m th nl).train g L D).label_embeddings =
      some (D.map g) ∧
    ∀ out c2 log,
      ((ZeroShotClassifier.init m th nl).train g L D).predictSt sim its ies
          os = .ok (out, c2, log) →
      c2 = (ZeroShotClassifier.init m th nl).train g L D ∧
      c2.model = m ∧ c2.labels = L ∧
      c2.label_embeddings = some (D.map g) ∧
      c2.threshold = th ∧ c2.null_label = nl ∧
      ∀ x, x ∈ log → its = some x ∧ ies = none := by
  refine ⟨rfl, ?_⟩
  intro out c2 log h
  obtain ⟨hc2, hlog⟩ := predictSt_ok_inv _ sim its ies os out c2 log h
  subst hc2
  exact ⟨rfl, rfl, rfl, rfl, rfl, rfl, hlog⟩

/-- Witness for C8: a concrete successful predict call on text input. -/
theorem c8_predict_frame_witness :
    ((ZeroShotClassifier.init (fun _ => (0 : ℚ)) (some 1) "OTHER").train
        (fun _ => (0 : ℚ)) ["A"] ["aa"]).predictSt
        (fun _ _ => (10 : ℚ)) (some ["x"]) none false =
      .ok (PredictOutput.labelsOnly ["A"],
        (ZeroShotClassifier.init (fun _ => (0 : ℚ)) (some 1) "OTHER").train
          (fun _ => (0 : ℚ)) ["A"] ["aa"], [["x"]]) ∧
    (((ZeroShotClassifier.init (fun _ => (0 : ℚ)) (some 1) "OTHER").train
        (fun _ => (0 : ℚ)) ["A"] ["aa"] =
      (ZeroShotClassifier.init (fun _ => (0 : ℚ)) (some 1) "OTHER").train
        (fun _ => (0 : ℚ)) ["A"] ["aa"]) ∧
      ((ZeroShotClassifier.init (fun _ => (0 : ℚ)) (some 1) "OTHER").train
          (fun _ => (0 : ℚ)) ["A"] ["aa"]).model = (fun _ => (0 : ℚ)) ∧
      ((ZeroShotClassifier.init (fun _ => (0 : ℚ)) (some 1) "OTHER").train
          (fun _ => (0 : ℚ)) ["A"] ["aa"]).labels = ["A"] ∧
      ((ZeroShotClassifier.init (fun _ => (0 : ℚ)) (some 1) "OTHER").train
          (fun _ => (0 : ℚ)) ["A"] ["aa"]).label_embeddings =
        some ((["aa"] : List String).map (fun _ => (0 : ℚ))) ∧
      ((ZeroShotClassifier.init (fun _ => (0 : ℚ)) (some 1) "OTHER").train
          (fun _ => (0 : ℚ)) ["A"] ["aa"]).threshold = some 1 ∧
      ((ZeroShotClassifier.init (fun _ => (0 : ℚ)) (some 1) "OTHER").train
          (fun _ => (0 : ℚ)) ["A"] ["aa"]).null_label = "OTHER" ∧
      ∀ x, x ∈ ([["x"]] : List (List String)) →
        (some ["x"] : Option (List String)) = some x ∧
        (none : Option (List ℚ)) = none) :=
  ⟨rfl,
    (c8_predict_frame ℚ (fun _ => (0 : ℚ)) (fun _ => (0 : ℚ)) (some 1)
        "OTHER" ["A"] ["aa"] (fun _ _ => (10 : ℚ)) (some ["x"]) none
        false).2
      (PredictOutput.labelsOnly ["A"])
      ((ZeroShotClassifier.init (fun _ => (0 : ℚ)) (some 1) "OTHER").train
        (fun _ => (0 : ℚ)) ["A"] ["aa"]) [["x"]] rfl⟩

/-- C2 counterexample: when the null label is itself one of the trained
labels (as with the OTHER class of the CASE 2021 label set), predict
returns the null label although the maximum similarity (here 1) is not
below the threshold (here 0), so "returns the null label exactly when the
maximum similarity is strictly less than the threshold" fails as stated. -/
theorem c2_threshold_null_cex :
    ((ZeroShotClassifier.init (fun _ => (0 : ℚ)) (some 0) "OTHER").train
        (fun _ => (0 : ℚ)) ["OTHER"] ["other"]).predict
        (fun _ _ => (1 : ℚ)) none (some [(0 : ℚ)]) false =
      .ok (PredictOutput.labelsOnly ["OTHER"]) ∧
    ¬ (("OTHER" = ((ZeroShotClassifier.init (fun _ => (0 : ℚ)) (some 0)
          "OTHER").train (fun _ => (0 : ℚ)) ["OTHER"] ["other"]).null_label)
        ↔ ((1 : ℚ) < 0)) :=
  ⟨rfl, by decide⟩

/-- C2 (amended): for a classifier with a non-None threshold t, trained on a
non-empty label list that does not contain the null label, predict returns
the null label exactly when the maximum similarity between the input
embedding and the trained label embeddings is strictly less than t, and
otherwise returns a maximal-similarity trained label. -/
theorem c2_threshold_null_amended (Emb : Type) (g m : String → Emb) (t : ℚ)
    (nl : String) (L D : List String) (sim : Emb → Emb → ℚ) (es : List Emb)
    (hL : L ≠ []) (hLD : L.length = D.length) (hnull : nl ∉ L) :
    ∃ preds,
      ((ZeroShotClassifier.init m (some t) nl).train g L D).predict sim none
          (some es) false = .ok (PredictOutput.labelsOnly preds) ∧
      preds.length = es.length ∧
      ∀ i, ∀ hi : i < es.length, ∀ hp : i < preds.length,
        ∃ j, ∃ hjL : j < L.length, ∃ hjD : j < D.length,
          (∀ k, ∀ hk : k < D.length,
            sim (es.get ⟨i, hi⟩) (g (D.get ⟨k, hk⟩)) ≤
              sim (es.get ⟨i, hi⟩) (g (D.get ⟨j, hjD⟩))) ∧
          (preds.get ⟨i, hp⟩ = nl ↔
            sim (es.get ⟨i, hi⟩) (g (D.get ⟨j, hjD⟩)) < t) ∧
          (¬ sim (es.get ⟨i, hi⟩) (g (D.get ⟨j, hjD⟩)) < t →
            preds.get ⟨i, hp⟩ = L.get ⟨j, hjL⟩) := by
  have hD : D ≠ [] := by
    intro h0
    rw [h0] at hLD
    simp at hLD
    exact hL hLD
  have hlembs : D.map g ≠ [] := by
    intro h0
    exact hD (List.map_eq_nil_iff.mp h0)
  obtain ⟨preds, scoress, _, hok, hlp, hls, hidx⟩ :=
    predict_trained ((ZeroShotClassifier.init m (some t) nl).train g L D)
      (D.map g) sim es rfl hL hlembs
  refine ⟨preds, hok, hlp, ?_⟩
  intro i hi hp
  have hs : i < scoress.length := by rw [hls]; exact hi
  obtain ⟨_, pred, score, scoredTail, hrank, hpred⟩ := hidx i hi hp hs
  obtain ⟨j, hjL, hjr, hpj, hsj, hmax, _⟩ :=
    rankRow_head L ((D.map g).map (sim (es.get ⟨i, hi⟩))) pred score
      scoredTail hrank
  have hrlen : ((D.map g).map (sim (es.get ⟨i, hi⟩))).length = D.length := by
    rw [List.length_map, List.length_map]
  have hget : ∀ k, ∀ hk : k < D.length,
      ∀ hk2 : k < ((D.map g).map (sim (es.get ⟨i, hi⟩))).length,
      ((D.map g).map (sim (es.get ⟨i, hi⟩))).get ⟨k, hk2⟩ =
        sim (es.get ⟨i, hi⟩) (g (D.get ⟨k, hk⟩)) := by
    intro k hk hk2
    simp [List.get_eq_getElem, List.getElem_map]
  have hjD : j < D.length := by rw [hrlen] at hjr; exact hjr
  have hscore : score = sim (es.get ⟨i, hi⟩) (g (D.get ⟨j, hjD⟩)) := by
    rw [hsj, hget j hjD hjr]
  have hpredif : preds.get ⟨i, hp⟩ = if score < t then nl else pred := hpred
  have hpne : pred ≠ nl := by
    intro h0
    rw [hpj] at h0
    exact hnull (h0 ▸ List.get_mem L j hjL)
  refine ⟨j, hjL, hjD, ?_, ?_, ?_⟩
  · intro k hk
    have hk2 : k < ((D.map g).map (sim (es.get ⟨i, hi⟩))).length := by
      rw [hrlen]
      exact hk
    have := hmax k (by rw [hLD]; exact hk) hk2
    rw [hget k hk hk2, hscore] at this
    exact this
  · rw [← hscore]
    constructor
    · intro hnl
      by_contra hge
      rw [hpredif, if_neg hge] at hnl
      exact hpne hnl
    · intro hlt
      rw [hpredif, if_pos hlt]
  · intro hge
    rw [← hscore] at hge
    rw [hpredif, if_neg hge, hpj]

/-- Witness for the amended C2: one trained label, null label distinct,
similarity below the threshold on the single row. -/
theorem c2_threshold_null_amended_witness :
    ∃ preds,
      ((ZeroShotClassifier.init (fun _ => (0 : ℚ)) (some 1) "OTHER").train
          (fun _ => (0 : ℚ)) ["A"] ["aa"]).predict (fun _ _ => (0 : ℚ)) none
          (some [(0 : ℚ)]) false = .ok (PredictOutput.labelsOnly preds) ∧
      preds.length = ([(0 : ℚ)] : List ℚ).length ∧
      ∀ i, ∀ hi : i < ([(0 : ℚ)] : List ℚ).length, ∀ hp : i < preds.length,
        ∃ j, ∃ hjL : j < (["A"] : List String).length,
          ∃ hjD : j < (["aa"] : List String).length,
          (∀ k, ∀ hk : k < (["aa"] : List String).length,
            (fun _ _ => (0 : ℚ)) (([(0 : ℚ)] : List ℚ).get ⟨i, hi⟩)
                ((fun _ => (0 : ℚ)) ((["aa"] : List String).get ⟨k, hk⟩)) ≤
              (fun _ _ => (0 : ℚ)) (([(0 : ℚ)] : List ℚ).get ⟨i, hi⟩)
                ((fun _ => (0 : ℚ)) ((["aa"] : List String).get ⟨j, hjD⟩))) ∧
          (preds.get ⟨i, hp⟩ = "OTHER" ↔
            (fun _ _ => (0 : ℚ)) (([(0 : ℚ)] : List ℚ).get ⟨i, hi⟩)
              ((fun _ => (0 : ℚ)) ((["aa"] : List String).get ⟨j, hjD⟩)) < 1) ∧
          (¬ (fun _ _ => (0 : ℚ)) (([(0 : ℚ)] : List ℚ).get ⟨i, hi⟩)
              ((fun _ => (0 : ℚ)) ((["aa"] : List String).get ⟨j, hjD⟩)) < 1 →
            preds.get ⟨i, hp⟩ = (["A"] : List String).get ⟨j, hjL⟩) :=
  c2_threshold_null_amended ℚ (fun _ => (0 : ℚ)) (fun _ => (0 : ℚ)) 1
    "OTHER" ["A"] ["aa"] (fun _ _ => (0 : ℚ)) [(0 : ℚ)]
    (by decide) (by decide) (by decide)

/-- C5 counterexample: when the null label is itself a trained label, the
threshold fires on the single row (score 0 below threshold 1) and the
returned ranked score list does contain the null label, and the emitted
label equals the head of the ranked list; both universal parts of the claim
fail as stated. -/
theorem c5_scores_null_cex :
    ((ZeroShotClassifier.init (fun _ => (0 : ℚ)) (some 1) "OTHER").train
        (fun _ => (0 : ℚ)) ["OTHER"] ["other"]).predict
        (fun _ _ => (0 : ℚ)) none (some [(0 : ℚ)]) true =
      .ok (PredictOutput.withScores ["OTHER"] [[("OTHER", 0)]]) ∧
    ((0 : ℚ) < 1) ∧
    ("OTHER", (0 : ℚ)) ∈ ([("OTHER", (0 : ℚ))] : List (String × ℚ)) ∧
    "OTHER" = ((ZeroShotClassifier.init (fun _ => (0 : ℚ)) (some 1)
      "OTHER").train (fun _ => (0 : ℚ)) ["OTHER"] ["other"]).null_label :=
  ⟨rfl, by norm_num, by decide, rfl⟩

/-- C5 (amended): for a trained classifier whose null label is not among
the trained labels, with output_scores true, on every row where the
threshold fires (head score strictly below the threshold) the emitted label
is the null label while the returned ranked list is the unmodified ranking
over the trained labels only: its head is a maximal-similarity trained
label, the null label appears in no returned ranked list, and the emitted
label differs from the head label of the ranked list. -/
theorem c5_threshold_scores_amended (Emb : Type) (g m : String → Emb)
    (t : ℚ) (nl : String) (L D : List String) (sim : Emb → Emb → ℚ)
    (es : List Emb) (hL : L ≠ []) (hLD : L.length = D.length)
    (hnull : nl ∉ L) :
    ∃ preds scoress,
      ((ZeroShotClassifier.init m (some t) nl).train g L D).predict sim none
          (some es) true = .ok (PredictOutput.withScores preds scoress) ∧
      preds.length = es.length ∧ scoress.length = es.length ∧
      (∀ row, row ∈ scoress → ∀ pr : String × ℚ, pr ∈ row →
        pr.1 ∈ L ∧ pr.1 ≠ nl) ∧
      ∀ i, ∀ hi : i < es.length, ∀ hp : i < preds.length,
        ∀ hs : i < scoress.length,
        ∀ p, ∀ s, ∀ tail, scoress.get ⟨i, hs⟩ = (p, s) :: tail → s < t →
          preds.get ⟨i, hp⟩ = nl ∧
          scoress.get ⟨i, hs⟩ =
            rankRow L ((D.map g).map (sim (es.get ⟨i, hi⟩))) ∧
          p ∈ L ∧
          (∀ k, ∀ hk : k < D.length,
            sim (es.get ⟨i, hi⟩) (g (D.get ⟨k, hk⟩)) ≤ s) ∧
          preds.get ⟨i, hp⟩ ≠ p := by
  have hD : D ≠ [] := by
    intro h0
    rw [h0] at hLD
    simp at hLD
    exact hL hLD
  have hlembs : D.map g ≠ [] := by
    intro h0
    exact hD (List.map_eq_nil_iff.mp h0)
  obtain ⟨preds, scoress, hokT, _, hlp, hls, hidx⟩ :=
    predict_trained ((ZeroShotClassifier.init m (some t) nl).train g L D)
      (D.map g) sim es rfl hL hlembs
  refine ⟨preds, scoress, hokT, hlp, hls, ?_, ?_⟩
  · intro row hrow pr hpr
    obtain ⟨⟨i, hs⟩, hieq⟩ := List.mem_iff_get.mp hrow
    have hi : i < es.length := by rw [← hls]; exact hs
    have hp : i < preds.length := by rw [hlp]; exact hi
    obtain ⟨hroweq, _⟩ := hidx i hi hp hs
    rw [← hieq, hroweq] at hpr
    have hzip : pr ∈ L.zip ((D.map g).map (sim (es.get ⟨i, hi⟩))) :=
      (List.mem_insertionSort scoreGe).mp hpr
    obtain ⟨a, b⟩ := pr
    have hmem := List.of_mem_zip hzip
    exact ⟨hmem.1, fun h0 => hnull (h0 ▸ hmem.1)⟩
  · intro i hi hp hs p s tail hrow hfire
    obtain ⟨hroweq, pred, score, scoredTail, hrank, hpred⟩ := hidx i hi hp hs
    have hcons : (pred, score) :: scoredTail = (p, s) :: tail := by
      rw [← hrank, ← hroweq, hrow]
    have hpp : pred = p := congrArg Prod.fst (List.cons.inj hcons).1
    have hss : score = s := congrArg Prod.snd (List.cons.inj hcons).1
    have hfire2 : score < t := by rw [hss]; exact hfire
    have hprednl : preds.get ⟨i, hp⟩ = nl := by
      rw [hpred]
      show (if score < t then nl else pred) = nl
      rw [if_pos hfire2]
    obtain ⟨j, hjL, hjr, hpj, hsj, hmax, _⟩ :=
      rankRow_head L ((D.map g).map (sim (es.get ⟨i, hi⟩))) pred score
        scoredTail hrank
    have hrlen : ((D.map g).map (sim (es.get ⟨i, hi⟩))).length =
        D.length := by
      rw [List.length_map, List.length_map]
    have hget : ∀ k, ∀ hk : k < D.length,
        ∀ hk2 : k < ((D.map g).map (sim (es.get ⟨i, hi⟩))).length,
        ((D.map g).map (sim (es.get ⟨i, hi⟩))).get ⟨k, hk2⟩ =
          sim (es.get ⟨i, hi⟩) (g (D.get ⟨k, hk⟩)) := by
      intro k hk hk2
      simp [List.get_eq_getElem, List.getElem_map]
    have hpmem : p ∈ L := by
      rw [← hpp, hpj]
      exact List.get_mem L j hjL
    refine ⟨hprednl, hroweq, hpmem, ?_, ?_⟩
    · intro k hk
      have hk2 : k < ((D.map g).map (sim (es.get ⟨i, hi⟩))).length := by
        rw [hrlen]
        exact hk
      have := hmax k (by rw [hLD]; exact hk) hk2
      rw [hget k hk hk2] at this
      rw [← hss]
      exact this
    · rw [hprednl]
      intro h0
      exact hnull (h0 ▸ hpmem)

/-- Witness for the amended C5: one trained label A, null label OTHER,
similarity 0 below threshold 1, so the threshold fires on the single row. -/
theorem c5_threshold_scores_amended_witness :
    ∃ preds scoress,
      ((ZeroShotClassifier.init (fun _ => (0 : ℚ)) (some 1) "OTHER").train
          (fun _ => (0 : ℚ)) ["A"] ["aa"]).predict (fun _ _ => (0 : ℚ)) none
          (some [(0 : ℚ)]) true = .ok (PredictOutput.withScores preds scoress) ∧
      preds.length = ([(0 : ℚ)] : List ℚ).length ∧
      scoress.length = ([(0 : ℚ)] : List ℚ).length ∧
      (∀ row, row ∈ scoress → ∀ pr : String × ℚ, pr ∈ row →
        pr.1 ∈ (["A"] : List String) ∧ pr.1 ≠ "OTHER") ∧
      ∀ i, ∀ hi : i < ([(0 : ℚ)] : List ℚ).length, ∀ hp : i < preds.length,
        ∀ hs : i < scoress.length,
        ∀ p, ∀ s, ∀ tail, scoress.get ⟨i, hs⟩ = (p, s) :: tail → s < 1 →
          preds.get ⟨i, hp⟩ = "OTHER" ∧
          scoress.get ⟨i, hs⟩ =
            rankRow ["A"] (((["aa"] : List String).map (fun _ => (0 : ℚ))).map
              ((fun _ _ => (0 : ℚ)) (([(0 : ℚ)] : List ℚ).get ⟨i, hi⟩))) ∧
          p ∈ (["A"] : List String) ∧
          (∀ k, ∀ hk : k < (["aa"] : List String).length,
            (fun _ _ => (0 : ℚ)) (([(0 : ℚ)] : List ℚ).get ⟨i, hi⟩)
              ((fun _ => (0 : ℚ)) ((["aa"] : List String).get ⟨k, hk⟩)) ≤ s) ∧
          preds.get ⟨i, hp⟩ ≠ p :=
  c5_threshold_scores_amended ℚ (fun _ => (0 : ℚ)) (fun _ => (0 : ℚ)) 1
    "OTHER" ["A"] ["aa"] (fun _ _ => (0 : ℚ)) [(0 : ℚ)]
    (by decide) (by decide) (by decide)

/-- C6: read_dataset performs no failure handling: whenever some non-header
line of the file does not split on tab into exactly three fields, the call
fails with a propagated exception and returns no dataset; no line is skipped
or repaired. -/
theorem c6_read_dataset_propagates (fileLines : List (List Char))
    (h : ∃ line, line ∈ fileLines.drop 1 ∧
      (splitTab (pyStrip line)).length ≠ 3) :
    ∃ msg, read_dataset fileLines = .error msg :=
  readLines_error (fileLines.drop 1) h

/-- Witness for C6 at a concrete file: a header plus one two-field line. -/
theorem c6_read_dataset_propagates_witness :
    ∃ msg, read_dataset ["id\ttext\tlabel".toList, "only two\tfields".toList]
      = .error msg :=
  c6_read_dataset_propagates _ ⟨"only two\tfields".toList, by decide, by decide⟩

/-- C10: read_dataset skips exactly the header line and returns, in file
order, one record per remaining line, each record holding the fields id,
text and label taken in that order from splitting the stripped line on tab;
the number of records is the number of lines minus one. -/
theorem c10_read_dataset_shape (fileLines : List (List Char))
    (h : ∀ line, line ∈ fileLines.drop 1 →
      (splitTab (pyStrip line)).length = 3) :
    ∃ recs, read_dataset fileLines = .ok recs ∧
      recs.length = fileLines.length - 1 ∧
      ∀ i, ∀ hi : i < (fileLines.drop 1).length, ∀ hr : i < recs.length,
        recs.get ⟨i, hr⟩ =
          { id := (splitTab (pyStrip ((fileLines.drop 1).get ⟨i, hi⟩))).getD 0 [],
            text := (splitTab (pyStrip ((fileLines.drop 1).get ⟨i, hi⟩))).getD 1 [],
            label := (splitTab (pyStrip ((fileLines.drop 1).get ⟨i, hi⟩))).getD 2 [] } := by
  obtain ⟨recs, h1, h2, h3⟩ := readLines_ok (fileLines.drop 1) h
  refine ⟨recs, h1, ?_, h3⟩
  rw [h2, List.length_drop]

/-- Witness for C10 at a concrete three-line file (header plus two rows). -/
theorem c10_read_dataset_shape_witness :
    ∃ recs, read_dataset ["id\ttext\tlabel\n".toList, "1\thello\tA\n".toList,
        "2\tworld w\tB\n".toList] = .ok recs ∧
      recs.length = (["id\ttext\tlabel\n".toList, "1\thello\tA\n".toList,
        "2\tworld w\tB\n".toList] : List (List Char)).length - 1 ∧
      ∀ i, ∀ hi : i < ((["id\ttext\tlabel\n".toList, "1\thello\tA\n".toList,
          "2\tworld w\tB\n".toList] : List (List Char)).drop 1).length,
        ∀ hr : i < recs.length,
        recs.get ⟨i, hr⟩ =
          { id := (splitTab (pyStrip (((["id\ttext\tlabel\n".toList,
              "1\thello\tA\n".toList, "2\tworld w\tB\n".toList] :
              List (List Char)).drop 1).get ⟨i, hi⟩))).getD 0 [],
            text := (splitTab (pyStrip (((["id\ttext\tlabel\n".toList,
              "1\thello\tA\n".toList, "2\tworld w\tB\n".toList] :
              List (List Char)).drop 1).get ⟨i, hi⟩))).getD 1 [],
            label := (splitTab (pyStrip (((["id\ttext\tlabel\n".toList,
              "1\thello\tA\n".toList, "2\tworld w\tB\n".toList] :
              List (List Char)).drop 1).get ⟨i, hi⟩))).getD 2 [] } :=
  c10_read_dataset_shape _ (by decide)

end ZeroShot
